import Mathlib

/-!
Shallow embedding of `src/main.py` (ataliasraniel/imagecompressor).

The embedding covers the pieces the specification's claims are about:
the `CompressionConfig` dataclass, the resize arithmetic of
`ImageCompressor._resize_image`, the JPEG color normalization inside
`ImageCompressor.compress_image`, the save-kwargs derivation of
`ImageCompressor._get_save_kwargs`, the per-file pipeline
`ImageCompressor.compress_image` (output-path planning, pre-encode
backup rename, delete-on-format-change, statistics counters, and the
try/except recovery), the per-directory loop, and the division guard
of `ImageCompressor.print_statistics`.

Filesystem state is modelled as an association list from paths to file
contents; the image codec is an oracle: each file carries
`Option ImageData` (`none` = `PIL.Image.open` raises) and each
`compress_image` call takes the encode outcome as `Option Nat`
(`none` = `image.save` raises, `some n` = `n` bytes written).
Machine integers are `Nat`; Python's `int(height * (max_width/width))`
is embedded as the exact floor `height * max_width / width`.
-/

/-- A filesystem path, abstracted into pathlib's `parent` / `stem` /
`suffix` decomposition, which is all `main.py` uses. -/
structure FPath where
  dir : String
  stem : String
  suffix : String
deriving DecidableEq, Repr

/-- Embedding of `pathlib.Path.with_suffix`: replace the extension. -/
def FPath.with_suffix (p : FPath) (s : String) : FPath :=
  { p with suffix := s }

/-- ASCII `str.upper()` (Python; config formats and extensions are
ASCII), written over the character list so it evaluates by kernel
reduction. -/
def str_upper (s : String) : String :=
  String.mk (s.data.map Char.toUpper)

/-- ASCII `str.lower()`. -/
def str_lower (s : String) : String :=
  String.mk (s.data.map Char.toLower)

/-- PIL color modes relevant to the pipeline (`main.py` inspects
`image.mode`; PIL's mode set includes `RGB`, `RGBA`, palette `P`,
grayscale `L` and grayscale-with-alpha `LA`). -/
inductive ColorMode where
  | RGB
  | RGBA
  | P
  | L
  | LA
deriving DecidableEq, Repr

/-- A decoded raster image: dimensions and color mode. -/
structure ImageData where
  width : Nat
  height : Nat
  mode : ColorMode
deriving DecidableEq, Repr

/-- One file on disk: its byte size (`stat().st_size`) and its decode
outcome (`none` means `PIL.Image.open` raises on this file). -/
structure FileInfo where
  size : Nat
  image : Option ImageData
deriving DecidableEq, Repr

/-- The filesystem: an association list from paths to file contents. -/
abbrev FS := List (FPath × FileInfo)

/-- Look a path up in the filesystem (`Path.exists` / `Path.stat`). -/
def fsLookup : FS → FPath → Option FileInfo
  | [], _ => none
  | (q, fi) :: rest, p => if q = p then some fi else fsLookup rest p

/-- Remove a path from the filesystem (`Path.unlink`). -/
def fsErase : FS → FPath → FS
  | [], _ => []
  | (q, fi) :: rest, p =>
      if q = p then fsErase rest p else (q, fi) :: fsErase rest p

/-- Create or overwrite a file (`Image.save` writing its output). -/
def fsInsert (fs : FS) (p : FPath) (fi : FileInfo) : FS :=
  (p, fi) :: fsErase fs p

/-- Embedding of `Path.rename`: move the file at `p` to `q` (no-op when `p` is
absent; in `compress_image` the rename only runs after the existence
check succeeded). -/
def fsRename (fs : FS) (p q : FPath) : FS :=
  match fsLookup fs p with
  | none => fs
  | some fi => fsInsert (fsErase fs p) q fi

/-- The `CompressionConfig` dataclass with its defaults (`main.py`
lines 15-26). -/
structure CompressionConfig where
  quality : Nat := 85
  format : String := "JPEG"
  max_width : Option Nat := none
  max_height : Option Nat := none
  optimize : Bool := true
  progressive : Bool := true
  backup_original : Bool := false
  output_suffix : String := "_compressed"
  delete_original_on_format_change : Bool := true
deriving DecidableEq, Repr

/-- The mutable `self.stats` dictionary (`main.py` lines 33-38). -/
structure Stats where
  processed : Nat := 0
  errors : Nat := 0
  total_original_size : Nat := 0
  total_compressed_size : Nat := 0
deriving DecidableEq, Repr

/-- Compressor state threaded through `compress_image`: the statistics
counters plus the filesystem they act on. -/
structure CState where
  stats : Stats
  fs : FS
deriving DecidableEq, Repr

/-- Python truthiness of `Optional[int]`: `None` and `0` are falsy
(the resize guards test `if self.config.max_width and ...`). -/
def optTruthy : Option Nat → Bool
  | none => false
  | some n => n != 0

/-- First resize pass (`main.py` lines 60-63): if `max_width` is
truthy and `width > max_width`, scale the height by
`max_width / width` (Python truncates `int(height * ratio)`; embedded
as the exact floor) and set the width to `max_width`. -/
def width_cap (cfg : CompressionConfig) (wh : Nat × Nat) : Nat × Nat :=
  match cfg.max_width with
  | none => wh
  | some mw =>
      if mw ≠ 0 ∧ mw < wh.1 then (mw, wh.2 * mw / wh.1) else wh

/-- Second resize pass (`main.py` lines 65-68): applied to the output
of the first pass; if `max_height` is truthy and the (possibly already
scaled) height exceeds it, scale the width by `max_height / height`
and set the height to `max_height`. -/
def height_cap (cfg : CompressionConfig) (wh : Nat × Nat) : Nat × Nat :=
  match cfg.max_height with
  | none => wh
  | some mh =>
      if mh ≠ 0 ∧ mh < wh.2 then (wh.1 * mh / wh.2, mh) else wh

/-- Dimension part of `ImageCompressor._resize_image` (`main.py`
lines 53-73): early return when neither bound is truthy, otherwise
the width pass followed by the height pass on its result. -/
def resize_dims (cfg : CompressionConfig) (wh : Nat × Nat) : Nat × Nat :=
  if !optTruthy cfg.max_width && !optTruthy cfg.max_height then wh
  else height_cap cfg (width_cap cfg wh)

/-- Action of `ImageCompressor._resize_image` on the image record: only the
dimensions change (lines 70-73 return a resized or the original
image, never a different mode). -/
def resize_image (cfg : CompressionConfig) (img : ImageData) : ImageData :=
  { img with
    width := (resize_dims cfg (img.width, img.height)).1
    height := (resize_dims cfg (img.width, img.height)).2 }

/-- Description of the white-background composite performed for JPEG
targets (`main.py` lines 107-110): the background `Image.new` call's
size and fill color, and whether `paste` received the alpha band
(`image.split()[-1]`) as a mask. -/
structure PasteOp where
  bg_size : Nat × Nat
  bg_color : Nat × Nat × Nat
  used_alpha_mask : Bool
deriving DecidableEq, Repr

/-- JPEG color normalization (`main.py` lines 107-110): executed only
when `config.format.upper() == "JPEG"` and `image.mode in ("RGBA",
"P")`; the image is pasted onto a white `RGB` background of the same
size, with the alpha band as mask exactly when the mode is `RGBA`.
Returns the image handed to the rest of the pipeline plus the paste
operation performed, if any. -/
def jpeg_normalize (cfg : CompressionConfig) (img : ImageData) :
    ImageData × Option PasteOp :=
  if str_upper cfg.format = "JPEG" ∧
      (img.mode = ColorMode.RGBA ∨ img.mode = ColorMode.P) then
    ({ img with mode := ColorMode.RGB },
     some { bg_size := (img.width, img.height)
            bg_color := (255, 255, 255)
            used_alpha_mask := img.mode = ColorMode.RGBA })
  else (img, none)

/-- The keyword arguments `_get_save_kwargs` can put in its dictionary;
`none` means the key is absent. -/
structure SaveKwargs where
  optimize : Option Bool := none
  quality : Option Nat := none
  progressive : Option Bool := none
  method : Option Nat := none
deriving DecidableEq, Repr

/-- Embedding of `ImageCompressor._get_save_kwargs` (`main.py` lines 75-90): the
dictionary starts as `{"optimize": config.optimize}`, then the
`format.upper()` chain adds `quality`/`progressive` for JPEG,
overwrites `optimize` with `True` for PNG, and adds `quality` and
`method = 6` for WEBP; any other format keeps just the base entry. -/
def get_save_kwargs (cfg : CompressionConfig) : SaveKwargs :=
  let kwargs : SaveKwargs := { optimize := some cfg.optimize }
  if str_upper cfg.format = "JPEG" then
    { kwargs with quality := some cfg.quality
                  progressive := some cfg.progressive }
  else if str_upper cfg.format = "PNG" then
    { kwargs with optimize := some true }
  else if str_upper cfg.format = "WEBP" then
    { kwargs with quality := some cfg.quality, method := some 6 }
  else kwargs

/-- The target extension string `f".{config.format.lower()}"`
(`main.py` line 103). -/
def target_ext (cfg : CompressionConfig) : String :=
  "." ++ str_lower cfg.format

/-- Output-path derivation of `compress_image` (`main.py` lines
114-122), run only when the caller passed no explicit `output_path`:
format changed ⇒ replace the extension by the target one; else if
`backup_original` ⇒ `{stem}{output_suffix}.{format.lower()}` in the
same directory; else ⇒ replace the extension by the target one. -/
def plan_output (cfg : CompressionConfig) (input : FPath)
    (outputArg : Option FPath) (format_changed : Bool) : FPath :=
  match outputArg with
  | some p => p
  | none =>
      if format_changed then input.with_suffix (target_ext cfg)
      else if cfg.backup_original then
        { dir := input.dir
          stem := input.stem ++ cfg.output_suffix
          suffix := "." ++ str_lower cfg.format }
      else input.with_suffix ("." ++ str_lower cfg.format)

/-- The backup destination `input_path.with_suffix(f"{input_path.suffix}.bak")`
(`main.py` line 125). -/
def bak_path (input : FPath) : FPath :=
  { input with suffix := input.suffix ++ ".bak" }

/-- Guard of the pre-encode backup rename (`main.py` line 124):
`config.backup_original and not config.output_suffix and not
format_changed` (an empty `output_suffix` string is falsy). -/
def do_backup_rename (cfg : CompressionConfig) (format_changed : Bool) : Bool :=
  cfg.backup_original && cfg.output_suffix == "" && !format_changed

/-- Embedding of `ImageCompressor.compress_image` (`main.py` lines 92-155),
faithful to the source's order of effects inside the single
`try`/`except`:
1. missing input (line 95): log a warning and `return False` — no
   counter changes;
2. add `stat().st_size` to `total_original_size` (line 100);
3. compute `format_changed` by comparing the lower-cased input
   extension with `"." + format.lower()` (lines 102-104);
4. `Image.open` (decode failure raises, caught by the `except`:
   `errors += 1`, `return False`);
5. JPEG normalization and resize (lines 107-113);
6. output-path derivation when no explicit output was passed
   (lines 114-122);
7. pre-encode backup rename (lines 124-126);
8. `image.save` (line 129; failure raises → `errors += 1`,
   `return False`, the rename of step 7 is not rolled back);
9. delete the original when the format changed, deletion is enabled,
   the paths differ and the input still exists (lines 131-136);
10. `output_path.stat()`, add to `total_compressed_size`,
    `processed += 1` (lines 138-140);
11. `compression_ratio = (1 - compressed/original) * 100` (line 142)
    raises `ZeroDivisionError` when the original size is `0`, caught
    by the `except` after `processed` was already incremented.
The decode outcome is read from the filesystem; the encode outcome is
the `encodeBytes` oracle (`none` = raise, `some n` = `n` bytes
written). Returns the function's boolean result and the new state. -/
def compress_image (cfg : CompressionConfig) (st : CState) (input : FPath)
    (outputArg : Option FPath) (encodeBytes : Option Nat) : Bool × CState :=
  match fsLookup st.fs input with
  | none => (false, st)
  | some fi =>
    let s1 := { st.stats with
                total_original_size := st.stats.total_original_size + fi.size }
    let format_changed := str_lower input.suffix != target_ext cfg
    match fi.image with
    | none =>
        (false, { stats := { s1 with errors := s1.errors + 1 }, fs := st.fs })
    | some img0 =>
      let img1 := (jpeg_normalize cfg img0).1
      let img2 := resize_image cfg img1
      let output_path := plan_output cfg input outputArg format_changed
      let fs1 :=
        if do_backup_rename cfg format_changed then
          fsRename st.fs input (bak_path input)
        else st.fs
      match encodeBytes with
      | none =>
          (false, { stats := { s1 with errors := s1.errors + 1 }, fs := fs1 })
      | some nb =>
        let fs2 := fsInsert fs1 output_path { size := nb, image := some img2 }
        let del := format_changed && cfg.delete_original_on_format_change
                     && input != output_path && (fsLookup fs2 input).isSome
        let fs3 := if del then fsErase fs2 input else fs2
        match fsLookup fs3 output_path with
        | none =>
            (false, { stats := { s1 with errors := s1.errors + 1 }, fs := fs3 })
        | some outFi =>
          let s2 := { s1 with
                      total_compressed_size :=
                        s1.total_compressed_size + outFi.size
                      processed := s1.processed + 1 }
          if fi.size = 0 then
            (false, { stats := { s2 with errors := s2.errors + 1 }, fs := fs3 })
          else (true, { stats := s2, fs := fs3 })

/-- The per-directory loop of `scan_and_compress_directory` (`main.py`
lines 173-175): submit each candidate file to `compress_image` (with
no explicit output path), threading the shared state; each task
carries its encode-outcome oracle. -/
def run_files (cfg : CompressionConfig) (st : CState) :
    List (FPath × Option Nat) → CState
  | [] => st
  | (p, enc) :: rest =>
      run_files cfg (compress_image cfg st p none enc).2 rest

/-- The reduction percentage of `ImageCompressor.print_statistics`
(`main.py` lines 227-235): computed, and printed, only inside the
`if stats['total_original_size'] > 0` guard; `none` means the report
omits it and no division is performed. -/
def reduction_percent (s : Stats) : Option ℚ :=
  if s.total_original_size > 0 then
    some ((1 - (s.total_compressed_size : ℚ) / (s.total_original_size : ℚ)) * 100)
  else none

/-- Well-formed filesystem: a zero-byte file never decodes (PIL raises
on an empty file). `compress_image` preserves this as long as the
encoder never reports writing zero bytes, which PIL's `save` never
does for a real image. -/
def WFfs (fs : FS) : Prop :=
  ∀ p fi, fsLookup fs p = some fi → fi.size = 0 → fi.image = none

theorem fsLookup_erase (fs : FS) (p q : FPath) :
    fsLookup (fsErase fs p) q = if q = p then none else fsLookup fs q := by
  induction fs with
  | nil => simp [fsErase, fsLookup]
  | cons e rest ih =>
    obtain ⟨r, fi⟩ := e
    by_cases hrp : r = p <;> by_cases hrq : r = q <;> by_cases hqp : q = p <;>
      simp_all [fsErase, fsLookup]

theorem fsLookup_insert (fs : FS) (p q : FPath) (fi : FileInfo) :
    fsLookup (fsInsert fs p fi) q = if q = p then some fi else fsLookup fs q := by
  by_cases hqp : q = p
  · simp [fsInsert, fsLookup, fsLookup_erase, hqp]
  · simp [fsInsert, fsLookup, fsLookup_erase, hqp]
    intro h
    exact absurd h.symm hqp

theorem WFfs_nil : WFfs ([] : FS) := by
  intro p fi h
  simp [fsLookup] at h

theorem WFfs_erase (fs : FS) (p : FPath) (hwf : WFfs fs) :
    WFfs (fsErase fs p) := by
  intro q fi h h0
  rw [fsLookup_erase] at h
  by_cases hqp : q = p
  · simp [hqp] at h
  · rw [if_neg hqp] at h
    exact hwf q fi h h0

theorem WFfs_insert (fs : FS) (p : FPath) (fi : FileInfo) (hwf : WFfs fs)
    (hfi : fi.size = 0 → fi.image = none) : WFfs (fsInsert fs p fi) := by
  intro q fj h h0
  rw [fsLookup_insert] at h
  by_cases hqp : q = p
  · rw [if_pos hqp] at h
    cases h
    exact hfi h0
  · rw [if_neg hqp] at h
    exact hwf q fj h h0

theorem WFfs_rename (fs : FS) (p q : FPath) (hwf : WFfs fs) :
    WFfs (fsRename fs p q) := by
  unfold fsRename
  cases hp : fsLookup fs p with
  | none => exact hwf
  | some fi =>
    exact WFfs_insert _ _ _ (WFfs_erase fs p hwf) (hwf p fi hp)

theorem compress_image_step (cfg : CompressionConfig) (st : CState)
    (input : FPath) (outArg : Option FPath) (enc : Option Nat)
    (hwf : WFfs st.fs) (henc : enc ≠ some 0) :
    ((compress_image cfg st input outArg enc).2.stats.processed
        + (compress_image cfg st input outArg enc).2.stats.errors
      ≤ st.stats.processed + st.stats.errors + 1)
    ∧ WFfs (compress_image cfg st input outArg enc).2.fs := by
  cases hin : fsLookup st.fs input with
  | none =>
    simp only [compress_image, hin]
    exact ⟨by omega, hwf⟩
  | some fi =>
    cases himg : fi.image with
    | none =>
      simp only [compress_image, hin, himg]
      exact ⟨by omega, hwf⟩
    | some img0 =>
      have hsz : fi.size ≠ 0 := by
        intro h0
        rw [hwf input fi hin h0] at himg
        cases himg
      cases enc with
      | none =>
        simp only [compress_image, hin, himg]
        refine ⟨by omega, ?_⟩
        split
        · exact WFfs_rename _ _ _ hwf
        · exact hwf
      | some nb =>
        have hnb : nb ≠ 0 := by
          intro h
          exact henc (by rw [h])
        simp only [compress_image, hin, himg]
        generalize hFS1 : (if do_backup_rename cfg
            (str_lower input.suffix != target_ext cfg) = true then
              fsRename st.fs input (bak_path input) else st.fs) = fsA
        have hwf1 : WFfs fsA := by
          rw [← hFS1]
          split
          · exact WFfs_rename _ _ _ hwf
          · exact hwf
        have hwf2 : WFfs (fsInsert fsA
            (plan_output cfg input outArg
              (str_lower input.suffix != target_ext cfg))
            { size := nb,
              image := some (resize_image cfg (jpeg_normalize cfg img0).1) }) :=
          WFfs_insert _ _ _ hwf1 (fun h => absurd h hnb)
        refine ⟨?_, ?_⟩
        · split
          · dsimp only
            omega
          · split
            · exact absurd (by assumption) hsz
            · dsimp only
              omega
        · split <;> repeat' split
          all_goals first
            | exact WFfs_erase _ _ hwf2
            | exact hwf2

theorem run_files_bound (cfg : CompressionConfig) :
    ∀ (tasks : List (FPath × Option Nat)) (st : CState), WFfs st.fs →
      (∀ t ∈ tasks, t.2 ≠ some 0) →
      (run_files cfg st tasks).stats.processed
          + (run_files cfg st tasks).stats.errors
        ≤ st.stats.processed + st.stats.errors + tasks.length := by
  intro tasks
  induction tasks with
  | nil =>
    intro st hwf _
    simp [run_files]
  | cons t rest ih =>
    intro st hwf henc
    obtain ⟨p, enc⟩ := t
    have hstep := compress_image_step cfg st p none enc hwf
      (henc (p, enc) (List.mem_cons_self _ _))
    have hrest := ih (compress_image cfg st p none enc).2 hstep.2
      (fun u hu => henc u (List.mem_cons_of_mem _ hu))
    simp only [run_files, List.length_cons]
    have h1 := hstep.1
    omega

/-- C8: after any sequence of `compress_image` invocations,
`processed + errors` grows by at most the number of submitted files,
because each invocation increments at most one of the two counters and
by at most one.  Hypotheses: the filesystem is well formed (a
zero-byte file never decodes, which is true of PIL) and the encoder
never reports writing zero bytes (also true of PIL); without them the
`compression_ratio` division of line 142 could raise after
`processed` was already incremented, counting one file twice. -/
theorem C8_stats_bound (cfg : CompressionConfig) (st : CState)
    (tasks : List (FPath × Option Nat))
    (hwf : WFfs st.fs) (henc : ∀ t ∈ tasks, t.2 ≠ some 0) :
    ((run_files cfg st tasks).stats.processed
        + (run_files cfg st tasks).stats.errors
      ≤ st.stats.processed + st.stats.errors + tasks.length)
    ∧ ∀ input outArg enc, enc ≠ some 0 →
        (compress_image cfg st input outArg enc).2.stats.processed
            + (compress_image cfg st input outArg enc).2.stats.errors
          ≤ st.stats.processed + st.stats.errors + 1 := by
  constructor
  · exact run_files_bound cfg tasks st hwf henc
  · intro input outArg enc he
    exact (compress_image_step cfg st input outArg enc hwf he).1

/-- Witness for C8 at a concrete run: one submitted file, starting
from empty statistics. -/
theorem C8_stats_bound_witness :
    (run_files {} ⟨{}, []⟩ [(⟨"d", "a", ".png"⟩, some 5)]).stats.processed
        + (run_files {} ⟨{}, []⟩ [(⟨"d", "a", ".png"⟩, some 5)]).stats.errors
      ≤ 1 := by
  have h := C8_stats_bound {} ⟨{}, []⟩ [(⟨"d", "a", ".png"⟩, some 5)]
    WFfs_nil (by decide)
  simpa using h.1

/-- C1 counterexample: for a path absent from the filesystem,
`compress_image` returns `False` via the early `return` of line 97,
which raises nothing — so the `except` handler never runs and
`Stats.errors` stays at `0` instead of being incremented by one. -/
theorem C1_counterexample :
    fsLookup ([] : FS) ⟨"d", "a", ".png"⟩ = none
    ∧ (compress_image {} ⟨{}, []⟩ ⟨"d", "a", ".png"⟩ none none).1 = false
    ∧ (compress_image {} ⟨{}, []⟩ ⟨"d", "a", ".png"⟩ none none).2.stats.errors = 0
    ∧ (compress_image {} ⟨{}, []⟩ ⟨"d", "a", ".png"⟩ none none).2.stats.processed
        = 0 := by
  decide

/-- C1 (amended): for every input path that does not exist,
`compress_image` returns a failure result and leaves the whole state
unchanged: `Stats.errors` is NOT incremented (the branch only logs a
warning) and `Stats.processed` is unchanged. -/
theorem C1_notfound_fails_without_counting (cfg : CompressionConfig)
    (st : CState) (input : FPath) (outArg : Option FPath) (enc : Option Nat)
    (h : fsLookup st.fs input = none) :
    compress_image cfg st input outArg enc = (false, st) := by
  unfold compress_image
  rw [h]

/-- Witness for C1 at a concrete missing file. -/
theorem C1_notfound_fails_without_counting_witness :
    compress_image {} ⟨{}, []⟩ ⟨"d", "a", ".png"⟩ none none
      = (false, ⟨{}, []⟩) :=
  C1_notfound_fails_without_counting {} ⟨{}, []⟩ ⟨"d", "a", ".png"⟩ none none rfl

/-- C3: with `maxWidth = W` set (positive, per the Config invariant)
and `width > W`, `_resize_image` first rescales to width exactly `W`
and height `⌊height·W/width⌋`, and the `maxHeight` pass (`height_cap`)
is then applied to that intermediate pair, not to the original height;
and with neither bound set the dimensions are returned unchanged. -/
theorem C3_resize_width_then_height (cfg : CompressionConfig)
    (W w h : Nat) :
    (cfg.max_width = some W → 0 < W → W < w →
        resize_dims cfg (w, h) = height_cap cfg (W, h * W / w))
    ∧ (cfg.max_width = none → cfg.max_height = none →
        resize_dims cfg (w, h) = (w, h)) := by
  constructor
  · intro hmw hW hw
    have hW0 : W ≠ 0 := Nat.pos_iff_ne_zero.mp hW
    simp [resize_dims, optTruthy, hmw, hW0, width_cap, hw]
  · intro hmw hmh
    simp [resize_dims, optTruthy, hmw, hmh]

/-- Witness for C3: the spec's own scenario 2400×1600 with
`maxWidth = 1920`, plus the unset-bounds case. -/
theorem C3_resize_width_then_height_witness :
    resize_dims { max_width := some 1920 } (2400, 1600)
        = height_cap { max_width := some 1920 } (1920, 1600 * 1920 / 2400)
    ∧ resize_dims {} (2400, 1600) = (2400, 1600) :=
  ⟨(C3_resize_width_then_height { max_width := some 1920 } 1920 2400 1600).1
      rfl (by decide) (by decide),
   (C3_resize_width_then_height {} 0 2400 1600).2 rfl rfl⟩

/-- C9: the reduction percentage of `print_statistics` is computed
only under the `total_original_size > 0` guard; when the total is `0`
the report omits it and no division is performed. -/
theorem C9_reduction_guard (s : Stats) :
    (reduction_percent s = none ↔ s.total_original_size = 0)
    ∧ (0 < s.total_original_size →
        reduction_percent s =
          some ((1 - (s.total_compressed_size : ℚ)
              / (s.total_original_size : ℚ)) * 100)) := by
  constructor
  · unfold reduction_percent
    split
    · constructor
      · intro h
        cases h
      · intro h
        omega
    · simp
      omega
  · intro h
    unfold reduction_percent
    rw [if_pos h]

/-- Witness for C9: a report with 200 original and 50 compressed
bytes shows 75 % reduction; with 0 original bytes it is omitted. -/
theorem C9_reduction_guard_witness :
    reduction_percent
        { processed := 1, errors := 0, total_original_size := 200,
          total_compressed_size := 50 } = some 75
    ∧ reduction_percent
        { processed := 0, errors := 0, total_original_size := 0,
          total_compressed_size := 0 } = none := by
  constructor
  · have h := (C9_reduction_guard
        { processed := 1, errors := 0, total_original_size := 200,
          total_compressed_size := 50 }).2 (by decide)
    rw [h]
    norm_num
  · exact (C9_reduction_guard
        { processed := 0, errors := 0, total_original_size := 0,
          total_compressed_size := 0 }).1.mpr rfl

/-- The claim's precondition, stated from the spec's words: does the
color mode include an alpha or a palette channel? (`RGBA` and `LA`
carry alpha; `P` is palette.) Kept separate from the source-derived
`jpeg_normalize` so the two can be compared. -/
def mode_has_alpha_or_palette : ColorMode → Bool
  | ColorMode.RGBA => true
  | ColorMode.LA => true
  | ColorMode.P => true
  | _ => false

/-- C4 counterexample: `LA` (grayscale with alpha) includes an alpha
channel, yet with the default JPEG target `jpeg_normalize` performs no
composite at all — the source guard tests `image.mode in ("RGBA", "P")`
literally, not "has an alpha or palette channel". -/
theorem C4_counterexample :
    mode_has_alpha_or_palette ColorMode.LA = true
    ∧ str_upper ({} : CompressionConfig).format = "JPEG"
    ∧ (jpeg_normalize {} ⟨10, 10, ColorMode.LA⟩).2 = none := by
  decide

/-- C4 (amended): for a JPEG target the composite onto an opaque white
background of the image's own size happens exactly when the mode is
literally `RGBA` (then the alpha band is the paste mask) or literally
`P` (then no mask is used); every other mode — including the
alpha-bearing `LA` — is passed through unchanged. -/
theorem C4_jpeg_normalization (cfg : CompressionConfig)
    (img : ImageData) (hj : str_upper cfg.format = "JPEG") :
    (img.mode = ColorMode.RGBA →
        jpeg_normalize cfg img =
          ({ img with mode := ColorMode.RGB },
           some { bg_size := (img.width, img.height),
                  bg_color := (255, 255, 255), used_alpha_mask := true }))
    ∧ (img.mode = ColorMode.P →
        jpeg_normalize cfg img =
          ({ img with mode := ColorMode.RGB },
           some { bg_size := (img.width, img.height),
                  bg_color := (255, 255, 255), used_alpha_mask := false }))
    ∧ (img.mode ≠ ColorMode.RGBA → img.mode ≠ ColorMode.P →
        jpeg_normalize cfg img = (img, none)) := by
  refine ⟨?_, ?_, ?_⟩
  · intro hm
    simp [jpeg_normalize, hj, hm]
  · intro hm
    simp [jpeg_normalize, hj, hm]
  · intro h1 h2
    simp [jpeg_normalize, hj, h1, h2]

/-- Witness for C4: an RGBA, a palette and a plain-RGB image under the
default JPEG config. -/
theorem C4_jpeg_normalization_witness :
    jpeg_normalize {} ⟨8, 6, ColorMode.RGBA⟩ =
        (⟨8, 6, ColorMode.RGB⟩,
         some { bg_size := (8, 6), bg_color := (255, 255, 255),
                used_alpha_mask := true })
    ∧ jpeg_normalize {} ⟨8, 6, ColorMode.P⟩ =
        (⟨8, 6, ColorMode.RGB⟩,
         some { bg_size := (8, 6), bg_color := (255, 255, 255),
                used_alpha_mask := false })
    ∧ jpeg_normalize {} ⟨8, 6, ColorMode.RGB⟩ = (⟨8, 6, ColorMode.RGB⟩, none) :=
  ⟨(C4_jpeg_normalization {} ⟨8, 6, ColorMode.RGBA⟩ (by decide)).1 rfl,
   (C4_jpeg_normalization {} ⟨8, 6, ColorMode.P⟩ (by decide)).2.1 rfl,
   (C4_jpeg_normalization {} ⟨8, 6, ColorMode.RGB⟩ (by decide)).2.2
      (by decide) (by decide)⟩

/-- C5 counterexample: for a WEBP target the derived kwargs are NOT
exactly `{quality, method}` — the base `optimize` entry of line 78
survives into the WEBP branch, so `optimize` is present as well. -/
theorem C5_counterexample :
    str_upper ({ format := "WEBP" } : CompressionConfig).format = "WEBP"
    ∧ get_save_kwargs { format := "WEBP" } =
        { optimize := some true, quality := some 85,
          progressive := none, method := some 6 } := by
  decide

/-- C5 (amended): the derived encode parameters are: JPEG →
`{optimize := config.optimize, quality, progressive}`; PNG →
`{optimize := true}` with quality ignored; WEBP →
`{optimize := config.optimize, quality, method := 6}`; any other
format → `{optimize := config.optimize}` only. -/
theorem C5_save_kwargs_by_format (cfg : CompressionConfig) :
    (str_upper cfg.format = "JPEG" →
        get_save_kwargs cfg =
          { optimize := some cfg.optimize, quality := some cfg.quality,
            progressive := some cfg.progressive, method := none })
    ∧ (str_upper cfg.format = "PNG" →
        get_save_kwargs cfg =
          { optimize := some true, quality := none,
            progressive := none, method := none })
    ∧ (str_upper cfg.format = "WEBP" →
        get_save_kwargs cfg =
          { optimize := some cfg.optimize, quality := some cfg.quality,
            progressive := none, method := some 6 })
    ∧ (str_upper cfg.format ≠ "JPEG" → str_upper cfg.format ≠ "PNG" →
          str_upper cfg.format ≠ "WEBP" →
        get_save_kwargs cfg =
          { optimize := some cfg.optimize, quality := none,
            progressive := none, method := none }) := by
  refine ⟨?_, ?_, ?_, ?_⟩
  · intro h
    simp [get_save_kwargs, h]
  · intro h
    simp [get_save_kwargs, h]
  · intro h
    simp [get_save_kwargs, h]
  · intro h1 h2 h3
    simp [get_save_kwargs, h1, h2, h3]

/-- Witness for C5: the four format families at concrete configs. -/
theorem C5_save_kwargs_by_format_witness :
    get_save_kwargs {} =
        { optimize := some true, quality := some 85,
          progressive := some true, method := none }
    ∧ get_save_kwargs { format := "PNG", optimize := false } =
        { optimize := some true, quality := none,
          progressive := none, method := none }
    ∧ get_save_kwargs { format := "WEBP" } =
        { optimize := some true, quality := some 85,
          progressive := none, method := some 6 }
    ∧ get_save_kwargs { format := "BMP" } =
        { optimize := some true, quality := none,
          progressive := none, method := none } :=
  ⟨(C5_save_kwargs_by_format {}).1 (by decide),
   (C5_save_kwargs_by_format { format := "PNG", optimize := false }).2.1
      (by decide),
   (C5_save_kwargs_by_format { format := "WEBP" }).2.2.1 (by decide),
   (C5_save_kwargs_by_format { format := "BMP" }).2.2.2
      (by decide) (by decide) (by decide)⟩

/-- An unsupported target format for the C2 counterexample. -/
def cfgX : CompressionConfig := { format := "XYZQ" }

/-- The candidate file for the C2 counterexample. -/
def pX : FPath := ⟨"d", "scan", ".png"⟩

/-- A filesystem holding one decodable image for the C2
counterexample. -/
def fsX : FS := [(pX, { size := 100, image := some ⟨4, 4, ColorMode.RGB⟩ })]

/-- C2 counterexample: with the unsupported target format `"XYZQ"`
the run does not fail before processing — the submitted file IS
handled per-file: `compress_image` runs, the encode failure is caught
by its `except`, `Stats.errors` becomes `1`, and the loop goes on.
There is no startup validation of `Config.format` anywhere in the
program. -/
theorem C2_counterexample :
    (str_upper cfgX.format ≠ "JPEG" ∧ str_upper cfgX.format ≠ "PNG"
      ∧ str_upper cfgX.format ≠ "WEBP")
    ∧ (run_files cfgX ⟨{}, fsX⟩ [(pX, none)]).stats.errors = 1
    ∧ (run_files cfgX ⟨{}, fsX⟩ [(pX, none)]).stats.processed = 0
    ∧ (compress_image cfgX ⟨{}, fsX⟩ pX none none).1 = false := by
  decide

/-- C2 (amended): an unsupported target format is not validated at
startup; it surfaces per-file: for any config, when the input exists
and decodes but the encode step raises (as `image.save` does for an
unknown format), `compress_image` returns a failure, increments
`Stats.errors` by one, leaves `Stats.processed` unchanged, and the
run continues with the next file. -/
theorem C2_unsupported_format_is_per_file (cfg : CompressionConfig)
    (st : CState) (input : FPath) (outArg : Option FPath)
    (fi : FileInfo) (img : ImageData)
    (hin : fsLookup st.fs input = some fi) (himg : fi.image = some img) :
    (compress_image cfg st input outArg none).1 = false
    ∧ (compress_image cfg st input outArg none).2.stats.errors
        = st.stats.errors + 1
    ∧ (compress_image cfg st input outArg none).2.stats.processed
        = st.stats.processed := by
  simp [compress_image, hin, himg]

/-- Witness for C2 at the concrete unsupported-format run. -/
theorem C2_unsupported_format_is_per_file_witness :
    (compress_image cfgX ⟨{}, fsX⟩ pX none none).1 = false
    ∧ (compress_image cfgX ⟨{}, fsX⟩ pX none none).2.stats.errors = 0 + 1
    ∧ (compress_image cfgX ⟨{}, fsX⟩ pX none none).2.stats.processed = 0 :=
  C2_unsupported_format_is_per_file cfgX ⟨{}, fsX⟩ pX none
    ⟨100, some ⟨4, 4, ColorMode.RGB⟩⟩ ⟨4, 4, ColorMode.RGB⟩ (by decide) rfl

set_option maxRecDepth 4000 in
theorem compress_fs_formatchange (cfg : CompressionConfig) (st : CState)
    (input : FPath) (outArg : Option FPath) (fi : FileInfo) (img : ImageData)
    (nb : Nat)
    (hin : fsLookup st.fs input = some fi)
    (himg : fi.image = some img)
    (hfc : str_lower input.suffix ≠ target_ext cfg) :
    (compress_image cfg st input outArg (some nb)).2.fs =
      if cfg.delete_original_on_format_change = true
          ∧ input ≠ plan_output cfg input outArg true then
        fsErase (fsInsert st.fs (plan_output cfg input outArg true)
          { size := nb,
            image := some (resize_image cfg (jpeg_normalize cfg img).1) }) input
      else
        fsInsert st.fs (plan_output cfg input outArg true)
          { size := nb,
            image := some (resize_image cfg (jpeg_normalize cfg img).1) } := by
  have hb : (str_lower input.suffix != target_ext cfg) = true := by
    simp [bne_iff_ne, hfc]
  by_cases hio : input = plan_output cfg input outArg true
  · cases hdel : cfg.delete_original_on_format_change <;>
      by_cases hsz : fi.size = 0 <;>
      simp [compress_image, hin, himg, hb, do_backup_rename, fsLookup_insert,
        fsLookup_erase, hdel, hsz, ← hio]
  · have hoi : plan_output cfg input outArg true ≠ input := Ne.symm hio
    cases hdel : cfg.delete_original_on_format_change <;>
      by_cases hsz : fi.size = 0 <;>
      simp [compress_image, hin, himg, hb, do_backup_rename, fsLookup_insert,
        fsLookup_erase, hdel, hio, hoi, hsz, bne_iff_ne]

/-- C6: when the format changed (the lower-cased input extension
differs from the target extension) and the encode succeeds, the
original file is deleted — absent from the resulting filesystem —
iff `delete_original_on_format_change` is set and the computed output
path differs from the input path (the input, having existed at the
start, still exists at the check of line 134); and with the flag off
the input path always survives. -/
theorem C6_delete_iff (cfg : CompressionConfig) (st : CState) (input : FPath)
    (outArg : Option FPath) (fi : FileInfo) (img : ImageData) (nb : Nat)
    (hin : fsLookup st.fs input = some fi)
    (himg : fi.image = some img)
    (hfc : str_lower input.suffix ≠ target_ext cfg) :
    (fsLookup (compress_image cfg st input outArg (some nb)).2.fs input = none
        ↔ cfg.delete_original_on_format_change = true
            ∧ input ≠ plan_output cfg input outArg true)
    ∧ (cfg.delete_original_on_format_change = false →
        (fsLookup (compress_image cfg st input outArg (some nb)).2.fs
            input).isSome = true) := by
  rw [compress_fs_formatchange cfg st input outArg fi img nb hin himg hfc]
  by_cases hio : input = plan_output cfg input outArg true
  · cases hdel : cfg.delete_original_on_format_change <;>
      simp [fsLookup_insert, fsLookup_erase, hdel, ← hio]
  · cases hdel : cfg.delete_original_on_format_change <;>
      simp [fsLookup_insert, fsLookup_erase, hdel, hio, hin]

/-- Input path for the C6 witness. -/
def p6 : FPath := ⟨"d", "photo", ".png"⟩

/-- Initial state for the C6 witness: `photo.png` exists and decodes. -/
def st6 : CState := ⟨{}, [(p6, ⟨500, some ⟨10, 10, ColorMode.RGB⟩⟩)]⟩

/-- Witness for C6: default config (JPEG target, deletion enabled) on
`photo.png`. -/
theorem C6_delete_iff_witness :
    (fsLookup (compress_image {} st6 p6 none (some 100)).2.fs p6 = none
        ↔ ({} : CompressionConfig).delete_original_on_format_change = true
            ∧ p6 ≠ plan_output {} p6 none true)
    ∧ (({} : CompressionConfig).delete_original_on_format_change = false →
        (fsLookup (compress_image {} st6 p6 none (some 100)).2.fs
            p6).isSome = true) :=
  C6_delete_iff {} st6 p6 none ⟨500, some ⟨10, 10, ColorMode.RGB⟩⟩
    ⟨10, 10, ColorMode.RGB⟩ 100 (by decide) rfl (by decide)

/-- C7: with `backup_original` set, an empty `output_suffix` and an
unchanged format, the original is renamed to `{inputPath}.bak` BEFORE
the encode step — even when the encode then fails, the resulting
filesystem shows the rename — and the output path is the plain
extension-replacement path, not a suffix-decorated name. -/
theorem C7_backup_rename (cfg : CompressionConfig) (st : CState)
    (input : FPath) (fi : FileInfo) (img : ImageData)
    (hb : cfg.backup_original = true)
    (hs : cfg.output_suffix = "")
    (hfc : str_lower input.suffix = target_ext cfg)
    (hin : fsLookup st.fs input = some fi)
    (himg : fi.image = some img) :
    (compress_image cfg st input none none).2.fs
        = fsRename st.fs input (bak_path input)
    ∧ plan_output cfg input none false
        = FPath.with_suffix input ("." ++ str_lower cfg.format) := by
  have hb2 : (str_lower input.suffix != target_ext cfg) = false := by
    simp [hfc]
  constructor
  · simp [compress_image, hin, himg, hb2, do_backup_rename, hb, hs]
  · simp [plan_output, hb, FPath.with_suffix, hs]

/-- Witness for C7: `a.jpeg` under a backup-enabled, empty-suffix JPEG
config, with a failing encode. -/
theorem C7_backup_rename_witness :
    (compress_image { backup_original := true, output_suffix := "" }
        ⟨{}, [(⟨"d", "a", ".jpeg"⟩, ⟨70, some ⟨5, 5, ColorMode.RGB⟩⟩)]⟩
        ⟨"d", "a", ".jpeg"⟩ none none).2.fs
      = fsRename [(⟨"d", "a", ".jpeg"⟩, ⟨70, some ⟨5, 5, ColorMode.RGB⟩⟩)]
          ⟨"d", "a", ".jpeg"⟩ (bak_path ⟨"d", "a", ".jpeg"⟩)
    ∧ plan_output { backup_original := true, output_suffix := "" }
        ⟨"d", "a", ".jpeg"⟩ none false
      = FPath.with_suffix ⟨"d", "a", ".jpeg"⟩
          ("." ++ str_lower ({ backup_original := true, output_suffix := "" }
            : CompressionConfig).format) :=
  C7_backup_rename { backup_original := true, output_suffix := "" }
    ⟨{}, [(⟨"d", "a", ".jpeg"⟩, ⟨70, some ⟨5, 5, ColorMode.RGB⟩⟩)]⟩
    ⟨"d", "a", ".jpeg"⟩ ⟨70, some ⟨5, 5, ColorMode.RGB⟩⟩ ⟨5, 5, ColorMode.RGB⟩
    rfl rfl (by decide) (by decide) rfl

/-- Input path for the C10 scenario: `photo.jpg`, already JPEG. -/
def p10 : FPath := ⟨"d", "photo", ".jpg"⟩

/-- Initial state for the C10 scenario. -/
def st10 : CState := ⟨{}, [(p10, ⟨1000, some ⟨10, 10, ColorMode.RGB⟩⟩)]⟩

/-- C10: format change is decided by comparing the lower-cased input
extension with the literal string `"." + format.lower()`: for
`photo.jpg` under the default config (format `JPEG`,
`delete_original_on_format_change = true`) the comparison is
`".jpg" ≠ ".jpeg"`, so the run writes `photo.jpeg` and deletes the
original `photo.jpg` even though it was already a JPEG file. -/
theorem C10_jpg_deleted_under_jpeg_target :
    str_lower p10.suffix = ".jpg"
    ∧ target_ext ({} : CompressionConfig) = ".jpeg"
    ∧ (".jpg" : String) ≠ ".jpeg"
    ∧ (compress_image {} st10 p10 none (some 300)).1 = true
    ∧ fsLookup (compress_image {} st10 p10 none (some 300)).2.fs
        ⟨"d", "photo", ".jpeg"⟩
      = some ⟨300, some ⟨10, 10, ColorMode.RGB⟩⟩
    ∧ fsLookup (compress_image {} st10 p10 none (some 300)).2.fs p10 = none
    ∧ (compress_image {} st10 p10 none (some 300)).2.stats.processed = 1 := by
  decide
